import Mathlib

set_option maxRecDepth 4000

/-!
Verification of the low-voltage lead-generation agent (src/lambda.py).

Python strings are modelled as lists of characters, Python None via Option,
and the effectful collaborators (the search API, HTTP fetching, the DynamoDB
sink, the hash function from hashlib) as explicit parameters or outcome
values.  The pure pipeline logic is translated function by function from the
source.  The phone, address and contact-name extractors are left as abstract
parameters of the pipeline model (universally quantified in every theorem):
no claim below depends on their internals, only on how the pipeline wires
their outputs together.
-/

namespace LVA

/-- A Python str, modelled as a list of characters. -/
abbrev Str := List Char

/-- Source truncate_string: empty stays empty, short values unchanged,
long values cut to the first maxLen characters. -/
def truncate_string (v : Str) (maxLen : Nat) : Str :=
  if v = [] then []
  else if v.length ≤ maxLen then v
  else v.take maxLen

/-- Source truncate_list: keep the first maxItems entries and, when a
per-item cap is given, truncate each kept entry to that length. -/
def truncate_list (vs : List Str) (maxItems : Nat) (perItemMaxLen : Option Nat) : List Str :=
  if vs = [] then []
  else
    let trimmed := vs.take maxItems
    match perItemMaxLen with
    | some m => trimmed.map (fun v => truncate_string v m)
    | none => trimmed

/-- Size limits from the source (DynamoDB item-size safeguards). -/
def MAX_EMAILS : Nat := 15

/-- Cap on stored phone numbers. -/
def MAX_PHONES : Nat := 10

/-- Cap on stored addresses. -/
def MAX_ADDRESSES : Nat := 10

/-- Cap on the stored title length. -/
def MAX_TITLE_LEN : Nat := 300

/-- Cap on the stored search snippet length. -/
def MAX_SEARCH_SNIPPET_LEN : Nat := 500

/-- Cap on the stored contact snippet length. -/
def MAX_CONTACT_SNIPPET_LEN : Nat := 800

/-- Only the top results of each query are processed. -/
def MAX_RESULTS_PER_QUERY : Nat := 3

/-- First index at which needle occurs in the remaining haystack, counting
from i; models Python str.find (which returns the least such index). -/
def str_find_aux (needle : Str) : Str → Nat → Option Nat
  | [], i => if needle = [] then some i else none
  | c :: rest, i =>
    if needle.isPrefixOf (c :: rest) then some i
    else str_find_aux needle rest (i + 1)

/-- Python hay.find(needle), as an Option instead of the -1 convention. -/
def str_find (hay needle : Str) : Option Nat :=
  str_find_aux needle hay 0

/-- The ASCII whitespace characters of Python str.strip and of the regex
class backslash-s (unicode spaces are out of scope for this program). -/
def is_py_space (c : Char) : Bool :=
  c == ' ' || c == '\t' || c == '\n' || c == '\r' || c == '\x0b' || c == '\x0c'

/-- Python str.strip with the default whitespace set. -/
def py_strip (s : Str) : Str :=
  ((s.dropWhile is_py_space).reverse.dropWhile is_py_space).reverse

/-- Remainder of the string after the first occurrence of a double slash. -/
def after_double_slash : Str → Option Str
  | [] => none
  | '/' :: '/' :: rest => some rest
  | _ :: rest => after_double_slash rest

/-- urllib.parse.urlparse(...).netloc for the URL shapes this program
handles: the text between the double slash and the next slash, question
mark or hash sign; empty when the URL has no double slash. -/
def url_netloc (u : Str) : Str :=
  match after_double_slash u with
  | none => []
  | some rest => rest.takeWhile (fun c => !(c == '/' || c == '?' || c == '#'))

/-- Split a string at its first colon, when one exists. -/
def split_at_colon : Str → Option (Str × Str)
  | [] => none
  | ':' :: rest => some ([], rest)
  | c :: rest =>
    match split_at_colon rest with
    | some p => some (c :: p.1, p.2)
    | none => none

/-- urllib.parse.urlparse(...).scheme for the URL shapes this program
handles: the text before the first colon when a double slash follows it. -/
def url_scheme (u : Str) : Str :=
  match split_at_colon u with
  | some p => if ("//".toList).isPrefixOf p.2 then p.1 else []
  | none => []

/-- The deny-list of the source (SKIP_DOMAINS).  Python iterates a set;
membership is all that matters, so a list model is faithful. -/
def SKIP_DOMAINS : List Str :=
  ["facebook.com".toList, "instagram.com".toList, "twitter.com".toList,
   "x.com".toList, "linkedin.com".toList, "indeed.com".toList,
   "glassdoor.com".toList, "yelp.com".toList, "angi.com".toList,
   "homeadvisor.com".toList, "yellowpages.com".toList, "bing.com".toList,
   "google.com".toList, "maps.google.com".toList, "youtube.com".toList,
   "pinterest.com".toList, "hdcnetworks.com".toList]

/-- Source should_skip_domain: a falsy URL is skipped; otherwise the
lowercased netloc is compared against every deny-listed domain, equal or
ending in a dot followed by the domain. -/
def should_skip_domain (url : Str) : Bool :=
  if url = [] then true
  else
    let domain := (url_netloc url).map Char.toLower
    SKIP_DOMAINS.any (fun bad => domain == bad || ('.' :: bad).isSuffixOf domain)

/-- Character class of the local part of EMAIL_REGEX. -/
def is_local_char (c : Char) : Bool :=
  c.isAlphanum || c == '_' || c == '.' || c == '+' || c == '-'

/-- Character class of the first domain label of EMAIL_REGEX. -/
def is_domain_char (c : Char) : Bool :=
  c.isAlphanum || c == '-'

/-- Character class of the domain tail of EMAIL_REGEX. -/
def is_tail_char (c : Char) : Bool :=
  c.isAlphanum || c == '-' || c == '.'

/-- One attempted match of EMAIL_REGEX at the start of the string, with the
backtracking of the Python engine resolved: each greedy plus-class run is
the maximal run (shrinking a run can never make the following literal
match, since the literals are outside the classes).  Returns the matched
text and the remainder after it. -/
def match_email_at (cs : Str) : Option (Str × Str) :=
  let L := cs.takeWhile is_local_char
  if L = [] then none
  else
    match cs.dropWhile is_local_char with
    | '@' :: r2 =>
      let D := r2.takeWhile is_domain_char
      if D = [] then none
      else
        match r2.dropWhile is_domain_char with
        | '.' :: r4 =>
          let T := r4.takeWhile is_tail_char
          if T = [] then none
          else some (L ++ '@' :: (D ++ '.' :: T), r4.dropWhile is_tail_char)
        | _ => none
    | _ => none

/-- re.findall(EMAIL_REGEX, text): scan left to right, at each position try
a match; on success emit it and continue after it, otherwise advance one
character.  Fuel bounds the scan; the callers pass the text length, which
suffices because every step consumes at least one character. -/
def find_emails_aux : Nat → Str → List Str
  | 0, _ => []
  | _ + 1, [] => []
  | fuel + 1, c :: rest =>
    match match_email_at (c :: rest) with
    | some p => p.1 :: find_emails_aux fuel p.2
    | none => find_emails_aux fuel rest

/-- All EMAIL_REGEX matches of a text, in scan order. -/
def find_emails (cs : Str) : List Str :=
  find_emails_aux cs.length cs

/-- Source extract_emails: falsy text gives no emails; otherwise the match
list is deduplicated (Python list(set(...)); the set enumeration order is
unspecified, so any duplicate-free list with the same members is a faithful
model). -/
def extract_emails (text : Str) : List Str :=
  if text = [] then [] else (find_emails text).dedup

/-- Python " ".join. -/
def join_space : List Str → Str
  | [] => []
  | [t] => t
  | t :: t2 :: rest => t ++ ' ' :: join_space (t2 :: rest)

/-- The fallback keyword loop of find_contact_snippet: the first keyword of
the list that occurs anywhere, reported at its first occurrence. -/
def first_keyword_idx (lower : Str) : List Str → Option Nat
  | [] => none
  | k :: rest =>
    match str_find lower k with
    | some i => some i
    | none => first_keyword_idx lower rest

/-- Source find_contact_snippet: None on falsy text; otherwise look for
"contact" in the lowercased text, then for "phone", "tel", "call", "email"
in that order; with no keyword return the first 400 characters, otherwise
the stripped window from 200 characters before the keyword to 400 after. -/
def find_contact_snippet (text : Str) : Option Str :=
  if text = [] then none
  else
    let lower := text.map Char.toLower
    let idx :=
      match str_find lower ("contact".toList) with
      | some i => some i
      | none => first_keyword_idx lower ["phone".toList, "tel".toList, "call".toList, "email".toList]
    match idx with
    | none => some (text.take 400)
    | some i =>
      let s := i - 200
      let e := min text.length (i + 400)
      some (py_strip ((text.drop s).take (e - s)))

/-- Source make_lead_id: the hex digest of sha256 over url, a separator bar
and the chosen email, with falsy arguments replaced by the empty string.
The hash itself comes from hashlib and is passed in as a function
parameter sha; every theorem quantifies over it. -/
def make_lead_id (sha : Str → Str) (url : Option Str) (email : Option Str) : Str :=
  sha ((url.getD []) ++ '|' :: (email.getD []))

/-- A Google search result record: the fields read from each item dict. -/
structure SearchResult where
  link : Option Str
  title : Option Str
  snippet : Option Str
deriving DecidableEq

/-- The item written to the store; optional fields are the keys the source
only sets conditionally. -/
structure LeadItem where
  id : Str
  url : Str
  title : Str
  snippet : Str
  domain : Str
  source_query : Str
  created_at : Nat
  emails : List Str
  phones : List Str
  addresses : List Str
  primary_email : Option Str
  contact_name : Option Str
  contact_snippet : Option Str
deriving DecidableEq

/-- Source build_lead_item, field for field.  now stands for int(time.time()). -/
def build_lead_item (sha : Str → Str) (result : SearchResult) (page_text : Str)
    (emails phones addresses : List Str) (contact_name : Option Str)
    (contact_snippet : Option Str) (chosen_email : Option Str)
    (source_query : Option Str) (now : Nat) : LeadItem :=
  let url := result.link
  let title := result.title.getD []
  let snippet := result.snippet.getD []
  let domain : Option Str :=
    match url with
    | some u => if u = [] then none else some (url_netloc u)
    | none => none
  let emails_capped := truncate_list emails MAX_EMAILS (some 254)
  let phones_capped := truncate_list phones MAX_PHONES (some 64)
  let addresses_capped := truncate_list addresses MAX_ADDRESSES (some 512)
  let contact_snippet_capped := truncate_string (contact_snippet.getD []) MAX_CONTACT_SNIPPET_LEN
  { id := make_lead_id sha url chosen_email
    url := truncate_string (url.getD []) 1000
    title := truncate_string title MAX_TITLE_LEN
    snippet := truncate_string snippet MAX_SEARCH_SNIPPET_LEN
    domain := truncate_string (domain.getD []) 255
    source_query := truncate_string (source_query.getD []) 500
    created_at := now
    emails := emails_capped
    phones := phones_capped
    addresses := addresses_capped
    primary_email :=
      match chosen_email with
      | some e => if e = [] then none else some (truncate_string e 254)
      | none => none
    contact_name :=
      match contact_name with
      | some n => if n = [] then none else some (truncate_string n 255)
      | none => none
    contact_snippet :=
      if contact_snippet_capped = [] then none else some contact_snippet_capped }

/-- Source is_high_quality_lead: at least one contact channel is present. -/
def is_high_quality_lead (emails phones addresses : List Str) : Bool :=
  !(emails.isEmpty && phones.isEmpty && addresses.isEmpty)

/-- Source try_contact_pages: fetch up to two guessed contact URLs on the
same scheme and host, keeping the non-empty texts.  fetch stands for
fetch_page_text with its network outcome fixed. -/
def try_contact_pages (fetch : Str → Str) (base_url : Str) (max_pages : Nat) : List Str :=
  if base_url = [] then []
  else
    let base := url_scheme base_url ++ "://".toList ++ url_netloc base_url
    let candidates := [base ++ "/contact".toList, base ++ "/contact-us".toList]
    ((candidates.take max_pages).map fetch).filter (fun t => !t.isEmpty)

/-- The combined text of the main page and the contact pages, joined as in
the source: page text, a space, then the extra texts joined by spaces. -/
def combined_text (fetch : Str → Str) (url : Str) : Str :=
  fetch url ++ ' ' :: join_space (try_contact_pages fetch url 2)

/-- The per-result body of process_search_results, returning the list of
items handed to save_lead_to_dynamo for that result.  The phone, address
and contact-name extractors are abstract parameters (see the header). -/
def process_search_result (sha : Str → Str) (query : Str) (now : Nat)
    (fetch : Str → Str) (extract_phones : Str → List Str)
    (extract_addresses : Str → List Str)
    (extract_contact_name : Str → Option Str)
    (result : SearchResult) : List LeadItem :=
  match result.link with
  | none => []
  | some url =>
    if url = [] then []
    else if should_skip_domain url then []
    else
      let combined := combined_text fetch url
      let emails_found := extract_emails combined
      let phones_found := extract_phones combined
      let addresses_found := extract_addresses combined
      let cname := extract_contact_name combined
      let csnippet := find_contact_snippet combined
      if !(is_high_quality_lead emails_found phones_found addresses_found) then []
      else if emails_found.isEmpty then
        [build_lead_item sha result combined [] phones_found addresses_found
          cname csnippet none (some query) now]
      else
        emails_found.map (fun email =>
          build_lead_item sha result combined emails_found phones_found
            addresses_found cname csnippet (some email) (some query) now)

/-- Source process_search_results: the top results of the query (the search
client already truncates to MAX_RESULTS_PER_QUERY), each processed in turn;
the returned list is the sequence of items submitted to the store. -/
def process_search_results (sha : Str → Str) (query : Str) (now : Nat)
    (fetch : Str → Str) (extract_phones : Str → List Str)
    (extract_addresses : Str → List Str)
    (extract_contact_name : Str → Option Str)
    (api_items : List SearchResult) : List LeadItem :=
  (api_items.take MAX_RESULTS_PER_QUERY).flatMap
    (process_search_result sha query now fetch extract_phones extract_addresses extract_contact_name)

/-- Case-insensitive prefix test against an already lowercased needle. -/
def ci_is_prefix : Str → Str → Bool
  | [], _ => true
  | _ :: _, [] => false
  | n :: ns, h :: hs => n == h.toLower && ci_is_prefix ns hs

/-- Remainder after the first occurrence of a character. -/
def drop_after_char (target : Char) : Str → Option Str
  | [] => none
  | c :: rest => if c == target then some rest else drop_after_char target rest

/-- Remainder after the first case-insensitive occurrence of needle. -/
def drop_after_ci (needle : Str) : Str → Option Str
  | [] => none
  | c :: rest =>
    if ci_is_prefix needle (c :: rest) then some ((c :: rest).drop needle.length)
    else drop_after_ci needle rest

/-- One attempted match of the script and style block regex of strip_html
at the start of the string, lazy quantifiers resolved to the earliest
closing angle bracket and the earliest matching closing tag.  Returns the
remainder after the match. -/
def script_style_match_at (cs : Str) : Option Str :=
  if ci_is_prefix ("<script".toList) cs then
    match drop_after_char '>' (cs.drop 7) with
    | some r => drop_after_ci ("</script>".toList) r
    | none => none
  else if ci_is_prefix ("<style".toList) cs then
    match drop_after_char '>' (cs.drop 6) with
    | some r => drop_after_ci ("</style>".toList) r
    | none => none
  else none

/-- re.sub of the script and style block regex with a space. -/
def remove_script_style_aux : Nat → Str → Str
  | 0, cs => cs
  | _ + 1, [] => []
  | fuel + 1, c :: rest =>
    match script_style_match_at (c :: rest) with
    | some rem => ' ' :: remove_script_style_aux fuel rem
    | none => c :: remove_script_style_aux fuel rest

/-- re.sub of the tag regex (an angle bracket, one or more non-closing
characters, a closing angle bracket) with a space. -/
def remove_tags_aux : Nat → Str → Str
  | 0, cs => cs
  | _ + 1, [] => []
  | fuel + 1, c :: rest =>
    if c == '<' then
      match rest.takeWhile (fun d => !(d == '>')), rest.dropWhile (fun d => !(d == '>')) with
      | [], _ => c :: remove_tags_aux fuel rest
      | _ :: _, '>' :: r3 => ' ' :: remove_tags_aux fuel r3
      | _ :: _, _ => c :: remove_tags_aux fuel rest
    else c :: remove_tags_aux fuel rest

/-- re.sub of one-or-more whitespace with a single space. -/
def collapse_ws_aux : Nat → Str → Str
  | 0, cs => cs
  | _ + 1, [] => []
  | fuel + 1, c :: rest =>
    if is_py_space c then ' ' :: collapse_ws_aux fuel (rest.dropWhile is_py_space)
    else c :: collapse_ws_aux fuel rest

/-- Source strip_html: drop script and style blocks, drop tags, collapse
whitespace. -/
def strip_html (s : Str) : Str :=
  if s = [] then []
  else
    let t1 := remove_script_style_aux s.length s
    let t2 := remove_tags_aux t1.length t1
    collapse_ws_aux t2.length t2

/-- The response of requests.get as the program reads it: the final status
code, the Content-Type header (empty when absent), the decoded text and
the raw bytes decoded as latin-1 with errors ignored. -/
structure HttpResponse where
  status : Nat
  content_type : Str
  text : Str
  content_latin1 : Str
deriving DecidableEq

/-- The outcome of requests.get: a raised RequestException (any network
failure) or a response. -/
inductive HttpOutcome where
  | failure : HttpOutcome
  | response : HttpResponse → HttpOutcome
deriving DecidableEq

/-- Python substring membership (the in operator on str). -/
def contains_sub (hay needle : Str) : Bool :=
  (str_find hay needle).isSome

/-- Source fetch_page_text over an explicit request outcome.  A raised
RequestException is caught and yields the empty string; raise_for_status
raises (and the handler catches) exactly for statuses 400 to 599; CSV-like
content is skipped; PDF-like content is returned as decoded bytes; all
other content is tag-stripped.  The function is total: no outcome is
re-raised to the caller. -/
def fetch_page_text (url : Str) (outcome : HttpOutcome) : Str :=
  match outcome with
  | .failure => []
  | .response r =>
    if 400 ≤ r.status ∧ r.status < 600 then []
    else
      let ct := r.content_type.map Char.toLower
      let lurl := url.map Char.toLower
      if contains_sub ct ("text/csv".toList) || (".csv".toList).isSuffixOf lurl then []
      else if contains_sub ct ("pdf".toList) || (".pdf".toList).isSuffixOf lurl then r.content_latin1
      else strip_html r.text

/-- Modelled from the spec: the persistent store (DynamoDB, spec sections
4.5 and 6) is a put-by-key key-value sink; put_item with an existing id
replaces that record, otherwise the item is added. -/
def put_item : List LeadItem → LeadItem → List LeadItem
  | [], item => [item]
  | x :: rest, item => if x.id = item.id then item :: rest else x :: put_item rest item

/-- The keys present in the modelled store. -/
def store_keys (store : List LeadItem) : List Str :=
  store.map (fun it => it.id)

/-- A summary email handed to the external email service. -/
structure SummaryEmail where
  sender : Str
  recipients : List Str
  subject : Str
  body : Str
deriving DecidableEq

/-- Fixed subject line of the run summary. -/
def SUMMARY_SUBJECT : Str := "Low voltage lead agent run report".toList

/-- Modelled from the spec: the fixed-format plain-text summary of section
4.6, truncated to the first 30 saved leads.  The notification code itself
is not under src (the variant-2 file there has no notifier). -/
def compose_run_summary (saved_leads : List LeadItem) : Str :=
  "Leads saved this run:".toList ++ (saved_leads.take 30).flatMap (fun it => '\n' :: it.url)

/-- Modelled from the spec: the notification step of section 4.6, absent
from src.  After all queries complete, when at least one recipient is
configured, at least one lead was saved and a sender address is
configured, the summary is composed and sent; otherwise nothing is sent. -/
def send_run_summary (recipients : List Str) (sender : Option Str)
    (saved_leads : List LeadItem) : Option SummaryEmail :=
  match sender with
  | none => none
  | some s =>
    if recipients = [] ∨ saved_leads = [] then none
    else some { sender := s, recipients := recipients, subject := SUMMARY_SUBJECT,
                body := compose_run_summary saved_leads }

end LVA


namespace LVA

/-- Every character kept by takeWhile satisfies the predicate. -/
theorem mem_takeWhile_pred {p : Char → Bool} : ∀ {l : Str} {c : Char}, c ∈ l.takeWhile p → p c = true := by
  intro l
  induction l with
  | nil => intro c h; simp [List.takeWhile] at h
  | cons a as ih =>
    intro c h
    rw [List.takeWhile_cons] at h
    by_cases ha : p a = true
    · rw [if_pos ha] at h
      rcases List.mem_cons.mp h with rfl | h
      · exact ha
      · exact ih h
    · rw [if_neg ha] at h
      simp at h

/-- takeWhile over a block of satisfying characters followed by a remainder
whose head fails the predicate returns exactly the block. -/
theorem takeWhile_block {p : Char → Bool} : ∀ (T rest : Str),
    (∀ c ∈ T, p c = true) → (∀ c, rest.head? = some c → p c = false) →
    (T ++ rest).takeWhile p = T ∧ (T ++ rest).dropWhile p = rest := by
  intro T
  induction T with
  | nil =>
    intro rest _ hrest
    cases rest with
    | nil => simp
    | cons a as =>
      have ha := hrest a rfl
      simp [List.takeWhile_cons, List.dropWhile_cons, ha]
  | cons x xs ih =>
    intro rest hT hrest
    have hx : p x = true := hT x (by simp)
    have hxs := ih rest (fun c hc => hT c (by simp [hc])) hrest
    simp [List.takeWhile_cons, List.dropWhile_cons, hx, hxs.1, hxs.2]

/-- The shape of a full EMAIL_REGEX match: a non-empty local part, an at
sign, a non-empty first domain label, a dot and a non-empty domain tail. -/
def EmailShape (m : Str) : Prop :=
  ∃ L D T, m = L ++ '@' :: (D ++ '.' :: T) ∧ L ≠ [] ∧ D ≠ [] ∧ T ≠ [] ∧
    (∀ c ∈ L, is_local_char c = true) ∧ (∀ c ∈ D, is_domain_char c = true) ∧
    (∀ c ∈ T, is_tail_char c = true)

/-- A shaped email is non-empty. -/
theorem EmailShape.ne_nil {m : Str} (h : EmailShape m) : m ≠ [] := by
  obtain ⟨L, D, T, rfl, -, -, -, -, -, -⟩ := h
  simp

/-- A successful match of EMAIL_REGEX produces a shaped email. -/
theorem match_email_at_shape {cs : Str} {p : Str × Str}
    (h : match_email_at cs = some p) : EmailShape p.1 := by
  unfold match_email_at at h
  simp only at h
  split at h
  · exact absurd h (by simp)
  · rename_i hL
    split at h
    · rename_i r2 hdw
      split at h
      · exact absurd h (by simp)
      · rename_i hD
        split at h
        · rename_i r4 hdw2
          split at h
          · exact absurd h (by simp)
          · rename_i hT
            have := (Option.some.injEq _ _).mp h
            refine ⟨cs.takeWhile is_local_char, r2.takeWhile is_domain_char,
              r4.takeWhile is_tail_char, ?_, hL, hD, hT, ?_, ?_, ?_⟩
            · rw [← this]
            · intro c hc; exact mem_takeWhile_pred hc
            · intro c hc; exact mem_takeWhile_pred hc
            · intro c hc; exact mem_takeWhile_pred hc
        · exact absurd h (by simp)
    · exact absurd h (by simp)

/-- Matching at the start of a shaped email followed by a remainder whose
head is not a tail character consumes exactly the email. -/
theorem match_email_at_of_shape {e : Str} (hs : EmailShape e) (rest : Str)
    (hrest : ∀ c, rest.head? = some c → is_tail_char c = false) :
    match_email_at (e ++ rest) = some (e, rest) := by
  obtain ⟨L, D, T, rfl, hL, hD, hT, hLc, hDc, hTc⟩ := hs
  have hTtail := takeWhile_block T rest hTc hrest
  have hDtail := takeWhile_block D ('.' :: (T ++ rest)) hDc
    (by intro c hc; cases hc; decide)
  have hLtail := takeWhile_block L ('@' :: (D ++ '.' :: (T ++ rest))) hLc
    (by intro c hc; cases hc; decide)
  have hassoc : (L ++ '@' :: (D ++ '.' :: T)) ++ rest
      = L ++ '@' :: (D ++ '.' :: (T ++ rest)) := by simp
  rw [hassoc]
  unfold match_email_at
  simp only [hLtail.1, hLtail.2]
  rw [if_neg hL]
  simp only [hDtail.1, hDtail.2]
  rw [if_neg hD]
  simp only [hTtail.1, hTtail.2]
  rw [if_neg hT]

/-- Every email the scanner reports is shaped. -/
theorem shape_of_mem_find_emails_aux :
    ∀ (fuel : Nat) (cs m : Str), m ∈ find_emails_aux fuel cs → EmailShape m := by
  intro fuel
  induction fuel with
  | zero => intro cs m h; simp [find_emails_aux] at h
  | succ f ih =>
    intro cs m h
    cases cs with
    | nil => simp [find_emails_aux] at h
    | cons c rest =>
      rw [find_emails_aux] at h
      cases hm : match_email_at (c :: rest) with
      | some p =>
        rw [hm] at h
        rcases List.mem_cons.mp h with rfl | h
        · exact match_email_at_shape hm
        · exact ih _ _ h
      | none =>
        rw [hm] at h
        exact ih _ _ h

/-- Every extracted email is shaped. -/
theorem shape_of_mem_extract_emails {t m : Str} (h : m ∈ extract_emails t) :
    EmailShape m := by
  unfold extract_emails at h
  split at h
  · simp at h
  · exact shape_of_mem_find_emails_aux _ _ _ (List.mem_dedup.mp h)

/-- The scanner finds nothing in the empty string, at any fuel. -/
theorem find_emails_aux_nil (fuel : Nat) : find_emails_aux fuel [] = [] := by
  cases fuel <;> rfl

/-- Unfolding step of the scanner on a successful match. -/
theorem find_emails_aux_step_some {f : Nat} {c : Char} {rest m aft : Str}
    (h : match_email_at (c :: rest) = some (m, aft)) :
    find_emails_aux (f + 1) (c :: rest) = m :: find_emails_aux f aft := by
  rw [find_emails_aux, h]

/-- Unfolding step of the scanner on a failed match. -/
theorem find_emails_aux_step_none {f : Nat} {c : Char} {rest : Str}
    (h : match_email_at (c :: rest) = none) :
    find_emails_aux (f + 1) (c :: rest) = find_emails_aux f rest := by
  rw [find_emails_aux, h]

/-- No match starts at a space. -/
theorem match_email_at_space (J : Str) : match_email_at (' ' :: J) = none := by
  simp [match_email_at, List.takeWhile_cons, show is_local_char ' ' = false from by decide]

/-- Scanning the space join of shaped emails with enough fuel reports
exactly those emails, in order. -/
theorem find_emails_aux_join :
    ∀ (es : List Str) (fuel : Nat), (∀ e ∈ es, EmailShape e) →
      (join_space es).length ≤ fuel → find_emails_aux fuel (join_space es) = es := by
  intro es
  induction es with
  | nil => intro fuel _ _; simp [join_space, find_emails_aux_nil]
  | cons e es' ih =>
    intro fuel hshape hfuel
    have hse : EmailShape e := hshape e (by simp)
    cases es' with
    | nil =>
      have hme : match_email_at e = some (e, []) := by
        have := match_email_at_of_shape hse [] (by intro c hc; simp at hc)
        rwa [List.append_nil] at this
      simp only [join_space] at hfuel ⊢
      have h1 : 1 ≤ e.length := by
        cases he : e with
        | nil => exact absurd he hse.ne_nil
        | cons c tail => simp
      obtain ⟨f, rfl⟩ : ∃ f, fuel = f + 1 := ⟨fuel - 1, by omega⟩
      cases e with
      | nil => exact absurd rfl hse.ne_nil
      | cons c tail =>
        rw [find_emails_aux_step_some hme, find_emails_aux_nil]
    | cons e2 rest' =>
      have hjoin : join_space (e :: e2 :: rest') = e ++ ' ' :: join_space (e2 :: rest') := rfl
      set J := join_space (e2 :: rest') with hJ
      have hme : match_email_at (e ++ ' ' :: J) = some (e, ' ' :: J) :=
        match_email_at_of_shape hse (' ' :: J)
          (by intro c hc; simp at hc; rw [← hc]; decide)
      have h1 : 1 ≤ e.length := by
        cases he : e with
        | nil => exact absurd he hse.ne_nil
        | cons c tail => simp
      rw [hjoin] at hfuel ⊢
      have hlen : e.length + 1 + J.length ≤ fuel := by
        have h2 := hfuel
        simp [List.length_append] at h2
        omega
      obtain ⟨f2, rfl⟩ : ∃ f2, fuel = f2 + 1 + 1 := ⟨fuel - 2, by omega⟩
      cases e with
      | nil => exact absurd rfl hse.ne_nil
      | cons c tail =>
        rw [List.cons_append] at hme ⊢
        rw [find_emails_aux_step_some hme, find_emails_aux_step_none (match_email_at_space J)]
        rw [ih f2 (fun x hx => hshape x (by simp [hx])) (by omega)]


/-- The space join of a list headed by a non-empty string is non-empty. -/
theorem join_space_ne_nil {e : Str} {es : List Str} (he : e ≠ []) :
    join_space (e :: es) ≠ [] := by
  cases es with
  | nil => simpa [join_space] using he
  | cons e2 rest =>
    simp [join_space]

/-- C7.  Email extraction is idempotent: extracting again from the space
join of the extracted emails returns the extracted list unchanged (hence,
in particular, the same set of emails). -/
theorem extract_emails_idempotent (t : Str) :
    extract_emails (join_space (extract_emails t)) = extract_emails t := by
  by_cases ht : t = []
  · subst ht
    simp [extract_emails, join_space]
  · have hshape : ∀ e ∈ extract_emails t, EmailShape e :=
      fun e he => shape_of_mem_extract_emails he
    have hnodup : (extract_emails t).Nodup := by
      unfold extract_emails
      rw [if_neg ht]
      exact List.nodup_dedup _
    cases hcase : extract_emails t with
    | nil => simp [hcase, extract_emails, join_space]
    | cons e0 es0 =>
      have he0 : e0 ≠ [] := (hshape e0 (by simp [hcase])).ne_nil
      have hjn : join_space (e0 :: es0) ≠ [] := join_space_ne_nil he0
      rw [hcase] at hshape hnodup
      unfold extract_emails
      rw [if_neg hjn]
      unfold find_emails
      rw [find_emails_aux_join (e0 :: es0) _ hshape (le_refl _)]
      exact List.dedup_eq_self.mpr hnodup

/-- Truncating a string never exceeds the cap. -/
theorem truncate_string_length (v : Str) (m : Nat) :
    (truncate_string v m).length ≤ m := by
  unfold truncate_string
  split
  · simp
  · split
    · assumption
    · simp

/-- Truncating a list never exceeds the item cap. -/
theorem truncate_list_length (vs : List Str) (n : Nat) (p : Option Nat) :
    (truncate_list vs n p).length ≤ n := by
  unfold truncate_list
  split
  · simp
  · cases p <;> simp

/-- Every member of a per-item-capped truncated list obeys the cap. -/
theorem truncate_list_mem_length {vs : List Str} {n m : Nat} {e : Str}
    (h : e ∈ truncate_list vs n (some m)) : e.length ≤ m := by
  unfold truncate_list at h
  split at h
  · simp at h
  · simp only at h
    obtain ⟨x, -, rfl⟩ := List.mem_map.mp h
    exact truncate_string_length x m

/-- A truncated non-empty list stays non-empty when the cap is positive. -/
theorem truncate_list_ne_nil {vs : List Str} {n : Nat} (p : Option Nat)
    (h : vs ≠ []) (hn : 0 < n) : truncate_list vs n p ≠ [] := by
  unfold truncate_list
  rw [if_neg h]
  cases vs with
  | nil => exact absurd rfl h
  | cons v vs2 =>
    obtain ⟨k, rfl⟩ : ∃ k, n = k + 1 := ⟨n - 1, by omega⟩
    cases p <;> simp [List.take_succ_cons]

/-- C5.  Every lead item built for persistence respects the size caps:
at most 15 emails, 10 phones and 10 addresses, each element itself capped
at 254, 64 and 512 characters, title at most 300, search snippet at most
500 and contact snippet at most 800 characters. -/
theorem built_lead_respects_caps (sha : Str → Str) (r : SearchResult) (pt : Str)
    (em ph ad : List Str) (cn csn ce q : Option Str) (now : Nat) :
    (build_lead_item sha r pt em ph ad cn csn ce q now).emails.length ≤ MAX_EMAILS ∧
    (∀ e ∈ (build_lead_item sha r pt em ph ad cn csn ce q now).emails, e.length ≤ 254) ∧
    (build_lead_item sha r pt em ph ad cn csn ce q now).phones.length ≤ MAX_PHONES ∧
    (∀ p ∈ (build_lead_item sha r pt em ph ad cn csn ce q now).phones, p.length ≤ 64) ∧
    (build_lead_item sha r pt em ph ad cn csn ce q now).addresses.length ≤ MAX_ADDRESSES ∧
    (∀ a ∈ (build_lead_item sha r pt em ph ad cn csn ce q now).addresses, a.length ≤ 512) ∧
    (build_lead_item sha r pt em ph ad cn csn ce q now).title.length ≤ MAX_TITLE_LEN ∧
    (build_lead_item sha r pt em ph ad cn csn ce q now).snippet.length ≤ MAX_SEARCH_SNIPPET_LEN ∧
    (∀ s, (build_lead_item sha r pt em ph ad cn csn ce q now).contact_snippet = some s →
      s.length ≤ MAX_CONTACT_SNIPPET_LEN) := by
  simp only [build_lead_item]
  refine ⟨?_, ?_, ?_, ?_, ?_, ?_, ?_, ?_, ?_⟩
  · exact truncate_list_length _ _ _
  · intro e he; exact truncate_list_mem_length he
  · exact truncate_list_length _ _ _
  · intro p hp; exact truncate_list_mem_length hp
  · exact truncate_list_length _ _ _
  · intro a ha; exact truncate_list_mem_length ha
  · exact truncate_string_length _ _
  · exact truncate_string_length _ _
  · intro s hs
    split at hs
    · exact absurd hs (by simp)
    · cases hs
      exact truncate_string_length _ _

/-- C1.  Every item handed to the persistence sink by the processing loop
has a non-empty emails, phones or addresses list: the contact-channel
gate admits no lead with all three empty, and capping preserves
non-emptiness. -/
theorem persisted_lead_has_contact_channel (sha : Str → Str) (query : Str)
    (now : Nat) (fetch : Str → Str) (xp xa : Str → List Str)
    (xc : Str → Option Str) (api_items : List SearchResult) (item : LeadItem)
    (hmem : item ∈ process_search_results sha query now fetch xp xa xc api_items) :
    item.emails ≠ [] ∨ item.phones ≠ [] ∨ item.addresses ≠ [] := by
  unfold process_search_results at hmem
  rw [List.mem_flatMap] at hmem
  obtain ⟨r, -, hmem⟩ := hmem
  unfold process_search_result at hmem
  cases hlink : r.link with
  | none => rw [hlink] at hmem; simp at hmem
  | some url =>
    rw [hlink] at hmem
    simp only at hmem
    split at hmem
    · simp at hmem
    · split at hmem
      · simp at hmem
      · split at hmem
        · simp at hmem
        · rename_i hgate
          have hb : is_high_quality_lead (extract_emails (combined_text fetch url))
              (xp (combined_text fetch url)) (xa (combined_text fetch url)) = true := by
            simpa using hgate
          split at hmem
          · rename_i hempty
            rw [List.mem_singleton] at hmem
            subst hmem
            have hemp : extract_emails (combined_text fetch url) = [] :=
              List.isEmpty_iff.mp hempty
            by_cases hph : xp (combined_text fetch url) = []
            · right; right
              have had : xa (combined_text fetch url) ≠ [] := by
                intro hnil
                unfold is_high_quality_lead at hb
                rw [hemp, hph, hnil] at hb
                simp at hb
              simp only [build_lead_item]
              exact truncate_list_ne_nil _ had (by decide)
            · right; left
              simp only [build_lead_item]
              exact truncate_list_ne_nil _ hph (by decide)
          · rename_i hempty
            obtain ⟨e, -, rfl⟩ := List.mem_map.mp hmem
            left
            simp only [build_lead_item]
            have hne : extract_emails (combined_text fetch url) ≠ [] := by
              intro hnil
              rw [hnil] at hempty
              simp at hempty
            exact truncate_list_ne_nil _ hne (by decide)

/-- Pairing a mapped list with its source pairs each image with its
preimage. -/
theorem zip_map_self {α β : Type} (f : α → β) (l : List α) :
    (l.map f).zip l = l.map (fun a => (f a, a)) := by
  induction l with
  | nil => rfl
  | cons x xs ih => simp [ih]

/-- C2 (amended).  When at least one email is extracted for a non-skipped
result, the processing loop submits exactly one item per distinct extracted
email, in order; each item carries that email, truncated to 254 characters,
as its primary email (the email itself whenever it is at most 254
characters long), and all the items share the same page-derived phones,
addresses, contact name and contact snippet. -/
theorem per_email_fanout (sha : Str → Str) (query : Str) (now : Nat)
    (fetch : Str → Str) (xp xa : Str → List Str) (xc : Str → Option Str)
    (r : SearchResult) (url : Str) (es : List Str)
    (hlink : r.link = some url) (hurl : url ≠ [])
    (hskip : should_skip_domain url = false)
    (hes : extract_emails (combined_text fetch url) = es) (hne : es ≠ []) :
    (process_search_result sha query now fetch xp xa xc r).length = es.length ∧
    (∀ pr ∈ (process_search_result sha query now fetch xp xa xc r).zip es,
      pr.1.primary_email = some (truncate_string pr.2 254)) ∧
    (∀ a ∈ process_search_result sha query now fetch xp xa xc r,
      ∀ b ∈ process_search_result sha query now fetch xp xa xc r,
        a.phones = b.phones ∧ a.addresses = b.addresses ∧
        a.contact_name = b.contact_name ∧ a.contact_snippet = b.contact_snippet) := by
  have hout : process_search_result sha query now fetch xp xa xc r =
      es.map (fun email => build_lead_item sha r (combined_text fetch url) es
        (xp (combined_text fetch url)) (xa (combined_text fetch url))
        (xc (combined_text fetch url)) (find_contact_snippet (combined_text fetch url))
        (some email) (some query) now) := by
    unfold process_search_result
    rw [hlink]
    simp only
    rw [if_neg hurl, hskip]
    simp only [Bool.false_eq_true, if_false]
    rw [hes]
    have hgate : is_high_quality_lead es (xp (combined_text fetch url))
        (xa (combined_text fetch url)) = true := by
      unfold is_high_quality_lead
      cases es with
      | nil => exact absurd rfl hne
      | cons x xs => simp
    rw [hgate]
    simp only [Bool.not_true, Bool.false_eq_true, if_false]
    rw [if_neg (by simpa using hne)]
  refine ⟨?_, ?_, ?_⟩
  · rw [hout, List.length_map]
  · intro pr hpr
    rw [hout, zip_map_self] at hpr
    obtain ⟨e, he, rfl⟩ := List.mem_map.mp hpr
    have hene : e ≠ [] := by
      have : e ∈ extract_emails (combined_text fetch url) := by rw [hes]; exact he
      exact (shape_of_mem_extract_emails this).ne_nil
    simp only [build_lead_item]
    rw [if_neg hene]
  · intro a ha b hb
    rw [hout] at ha hb
    obtain ⟨ea, -, rfl⟩ := List.mem_map.mp ha
    obtain ⟨eb, -, rfl⟩ := List.mem_map.mp hb
    exact ⟨rfl, rfl, rfl, rfl⟩

/-- C3.  A URL whose lowercased host equals a deny-listed domain or ends
with a dot followed by one is always rejected by the domain filter; the
filter looks at nothing but the URL. -/
theorem deny_listed_domain_rejected (url : Str) (bad : Str)
    (hbad : bad ∈ SKIP_DOMAINS)
    (h : (url_netloc url).map Char.toLower = bad ∨
      ('.' :: bad).isSuffixOf ((url_netloc url).map Char.toLower) = true) :
    should_skip_domain url = true := by
  unfold should_skip_domain
  split
  · rfl
  · simp only
    rw [List.any_eq_true]
    refine ⟨bad, hbad, ?_⟩
    rw [Bool.or_eq_true]
    rcases h with h | h
    · left; exact beq_iff_eq.mpr h
    · right; exact h


/-- Unfolding equation of put_item on the empty store. -/
theorem put_item_nil (item : LeadItem) : put_item [] item = [item] := rfl

/-- Unfolding equation of put_item on a non-empty store. -/
theorem put_item_cons (x : LeadItem) (rest : List LeadItem) (item : LeadItem) :
    put_item (x :: rest) item =
      if x.id = item.id then item :: rest else x :: put_item rest item := rfl

/-- Writing twice under the same key leaves the key set of the store
unchanged: the second write replaces the first. -/
theorem put_item_same_id_keys (st : List LeadItem) (i j : LeadItem)
    (h : i.id = j.id) :
    store_keys (put_item (put_item st i) j) = store_keys (put_item st i) := by
  induction st with
  | nil =>
    simp [put_item_nil, put_item_cons, store_keys, h]
  | cons x rest ih =>
    by_cases hx : x.id = i.id
    · simp [put_item_cons, hx, h, store_keys]
    · have hxj : ¬x.id = j.id := fun hj => hx (h ▸ hj)
      simp only [put_item_cons, if_neg hx, if_neg hxj, store_keys, List.map_cons]
      have h2 := ih
      simp only [store_keys] at h2
      rw [h2]

/-- C8.  The lead identifier is a function of the url and chosen email
alone: two builds that agree on the result link and the chosen email get
the same id, whatever the rest of the data, the timestamps or the query;
writing the second item therefore overwrites the record at that key
instead of adding one. -/
theorem lead_id_deterministic_and_overwrites (sha : Str → Str)
    (r1 r2 : SearchResult) (pt1 pt2 : Str) (em1 ph1 ad1 em2 ph2 ad2 : List Str)
    (cn1 cs1 cn2 cs2 : Option Str) (ce : Option Str) (q1 q2 : Option Str)
    (now1 now2 : Nat) (st : List LeadItem) (hurl : r1.link = r2.link) :
    (build_lead_item sha r1 pt1 em1 ph1 ad1 cn1 cs1 ce q1 now1).id =
      (build_lead_item sha r2 pt2 em2 ph2 ad2 cn2 cs2 ce q2 now2).id ∧
    store_keys (put_item
        (put_item st (build_lead_item sha r1 pt1 em1 ph1 ad1 cn1 cs1 ce q1 now1))
        (build_lead_item sha r2 pt2 em2 ph2 ad2 cn2 cs2 ce q2 now2)) =
      store_keys (put_item st (build_lead_item sha r1 pt1 em1 ph1 ad1 cn1 cs1 ce q1 now1)) := by
  have hid : (build_lead_item sha r1 pt1 em1 ph1 ad1 cn1 cs1 ce q1 now1).id =
      (build_lead_item sha r2 pt2 em2 ph2 ad2 cn2 cs2 ce q2 now2).id := by
    simp only [build_lead_item, make_lead_id, hurl]
  exact ⟨hid, put_item_same_id_keys st _ _ hid⟩

/-- C4 (spec-modelled).  When at least one recipient is configured, at
least one lead was saved and a sender address is configured, the run
summary is composed from the first 30 saved leads and handed to the email
service. -/
theorem run_summary_sent_when_configured (recipients : List Str)
    (sender : Option Str) (s : Str) (saved_leads : List LeadItem)
    (hr : recipients ≠ []) (hl : saved_leads ≠ []) (hs : sender = some s) :
    send_run_summary recipients sender saved_leads =
      some { sender := s, recipients := recipients, subject := SUMMARY_SUBJECT,
             body := compose_run_summary (saved_leads.take 30) } := by
  subst hs
  simp only [send_run_summary]
  rw [if_neg (not_or.mpr ⟨hr, hl⟩)]
  have hbody : compose_run_summary saved_leads
      = compose_run_summary (saved_leads.take 30) := by
    unfold compose_run_summary
    rw [List.take_take, min_self]
  rw [hbody]

/-- C6 (amended).  For a non-empty text in which none of "contact",
"phone", "tel", "call", "email" occurs (case-insensitively), the
contact-snippet extractor returns exactly the first 400 characters. -/
theorem no_keyword_snippet_is_first_400 (t : Str) (h0 : t ≠ [])
    (hc : str_find (t.map Char.toLower) ("contact".toList) = none)
    (hp : str_find (t.map Char.toLower) ("phone".toList) = none)
    (htl : str_find (t.map Char.toLower) ("tel".toList) = none)
    (hcl : str_find (t.map Char.toLower) ("call".toList) = none)
    (he : str_find (t.map Char.toLower) ("email".toList) = none) :
    find_contact_snippet t = some (t.take 400) := by
  unfold find_contact_snippet
  rw [if_neg h0]
  simp only [hc, hp, htl, hcl, he, first_keyword_idx]

/-- C6, the claim as frozen is false: the text consisting of a space and
the word tel contains none of "contact", "phone", "email", yet the
extractor windows around "tel" and strips, returning something different
from the first 400 characters of the text. -/
theorem contact_snippet_tel_counterexample :
    (" tel".toList ≠ ([] : Str)) ∧
    str_find ((" tel".toList).map Char.toLower) ("contact".toList) = none ∧
    str_find ((" tel".toList).map Char.toLower) ("phone".toList) = none ∧
    str_find ((" tel".toList).map Char.toLower) ("email".toList) = none ∧
    find_contact_snippet (" tel".toList) ≠ some ((" tel".toList).take 400) := by
  decide

/-- C9 (amended).  A network failure, or a response whose status is in the
range 400 to 599 (exactly the statuses raise_for_status turns into a
caught exception), makes the page-text extractor return the empty string;
the extractor is a total function, so no failure escapes to the caller. -/
theorem fetch_failure_yields_empty (url : Str) (outcome : HttpOutcome)
    (h : outcome = HttpOutcome.failure ∨
      ∃ r, outcome = HttpOutcome.response r ∧ 400 ≤ r.status ∧ r.status < 600) :
    fetch_page_text url outcome = [] := by
  rcases h with rfl | ⟨r, rfl, h1, h2⟩
  · rfl
  · simp only [fetch_page_text]
    rw [if_pos ⟨h1, h2⟩]

/-- C9, the claim as frozen is false: a 304 response (not a 2xx status) is
not an error for raise_for_status, so its body is processed normally and a
non-empty text is returned. -/
theorem fetch_304_counterexample :
    fetch_page_text ("https://ex.com/x".toList)
        (HttpOutcome.response ⟨304, "text/html".toList, "Hello".toList, "Hello".toList⟩)
      = "Hello".toList ∧
    ("Hello".toList ≠ ([] : Str)) ∧ ¬(200 ≤ 304 ∧ 304 < 300) := by
  decide

/-- Identity stand-in for the hash when theorems are instantiated on
concrete inputs (any function works, since every theorem quantifies over
the hash). -/
def sha_id : Str → Str := fun s => s

/-- A phone extractor returning nothing, for concrete instantiations. -/
def xp_nil : Str → List Str := fun _ => []

/-- An address extractor returning nothing, for concrete instantiations. -/
def xa_nil : Str → List Str := fun _ => []

/-- A contact-name extractor returning nothing, for concrete
instantiations. -/
def xc_none : Str → Option Str := fun _ => none

/-- A concrete result URL. -/
def ex_url : Str := "https://ex.com/a".toList

/-- A concrete query. -/
def ex_query : Str := "q".toList

/-- A concrete search result. -/
def ex_result : SearchResult := { link := some ex_url, title := none, snippet := none }

/-- A fetcher that returns one email address for every page. -/
def ex_fetch : Str → Str := fun _ => "a@b.c".toList

/-- The combined text the pipeline assembles for the concrete result. -/
def ex_combined : Str := combined_text ex_fetch ex_url

/-- The lead item the pipeline builds for the concrete result. -/
def ex_item : LeadItem :=
  build_lead_item sha_id ex_result ex_combined (extract_emails ex_combined) [] []
    none (find_contact_snippet ex_combined) (some ("a@b.c".toList)) (some ex_query) 0

/-- Sixteen distinct email addresses. -/
def emails16 : List Str :=
  ["a@x.io", "b@x.io", "c@x.io", "d@x.io", "e@x.io", "f@x.io", "g@x.io",
   "h@x.io", "i@x.io", "j@x.io", "k@x.io", "l@x.io", "m@x.io", "n@x.io",
   "o@x.io", "p@x.io"].map String.toList

/-- A page text holding the sixteen addresses. -/
def big_text : Str := join_space emails16

/-- A fetcher serving the sixteen-address page at the main URL only. -/
def fetch16 : Str → Str := fun u => if u = ex_url then big_text else []

/-- C10.  With more than fifteen distinct extracted emails, the per-email
fan-out emits an item whose primary email is not an element of the emails
list stored on that item (the stored list is capped at fifteen while the
fan-out covers every extracted email). -/
theorem fanout_primary_email_escapes_caps :
    ∃ it ∈ process_search_result sha_id ex_query 0 fetch16 xp_nil xa_nil xc_none ex_result,
      ∃ e ∈ it.primary_email.toList, e ∉ it.emails := by
  decide

/-- An email of 255 characters, above the 254-character primary-email cap. -/
def long_email : Str := List.replicate 250 'a' ++ "@b.co".toList

/-- A fetcher serving the long email at the main URL only. -/
def long_fetch : Str → Str := fun u => if u = ex_url then long_email else []

/-- C2, the claim as frozen is false on long addresses: a single extracted
255-character email produces a single lead item whose primary email field
holds the email truncated to 254 characters, not the extracted email. -/
theorem per_email_fanout_counterexample :
    extract_emails (combined_text long_fetch ex_url) = [long_email] ∧
    (process_search_result sha_id ex_query 0 long_fetch xp_nil xa_nil xc_none ex_result).map
        (fun it => it.primary_email) = [some (truncate_string long_email 254)] ∧
    truncate_string long_email 254 ≠ long_email := by
  decide


/-- Witness for C1 at a concrete run: the item the pipeline submits for the
example result has a contact channel. -/
theorem persisted_lead_contact_channel_witness :
    ex_item.emails ≠ [] ∨ ex_item.phones ≠ [] ∨ ex_item.addresses ≠ [] :=
  persisted_lead_has_contact_channel sha_id ex_query 0 ex_fetch xp_nil xa_nil
    xc_none [ex_result] ex_item (by decide)

/-- Witness for C2 at a concrete run with one extracted email. -/
theorem per_email_fanout_witness :
    (process_search_result sha_id ex_query 0 ex_fetch xp_nil xa_nil xc_none ex_result).length
        = ([("a@b.c".toList)] : List Str).length ∧
    (∀ pr ∈ (process_search_result sha_id ex_query 0 ex_fetch xp_nil xa_nil xc_none ex_result).zip
        ([("a@b.c".toList)] : List Str),
      pr.1.primary_email = some (truncate_string pr.2 254)) ∧
    (∀ a ∈ process_search_result sha_id ex_query 0 ex_fetch xp_nil xa_nil xc_none ex_result,
      ∀ b ∈ process_search_result sha_id ex_query 0 ex_fetch xp_nil xa_nil xc_none ex_result,
        a.phones = b.phones ∧ a.addresses = b.addresses ∧
        a.contact_name = b.contact_name ∧ a.contact_snippet = b.contact_snippet) :=
  per_email_fanout sha_id ex_query 0 ex_fetch xp_nil xa_nil xc_none ex_result ex_url
    [("a@b.c".toList)] rfl (by decide) (by decide) (by decide) (by decide)

/-- Witness for C3 at a concrete URL on a deny-listed subdomain with mixed
case. -/
theorem deny_listed_domain_rejected_witness :
    should_skip_domain ("https://M.Facebook.com/x".toList) = true :=
  deny_listed_domain_rejected ("https://M.Facebook.com/x".toList)
    ("facebook.com".toList) (by decide) (Or.inr (by decide))

/-- Witness for C4 at a concrete configuration with one saved lead. -/
theorem run_summary_sent_witness :
    send_run_summary [("boss@ex.com".toList)] (some ("agent@ex.com".toList)) [ex_item] =
      some { sender := "agent@ex.com".toList, recipients := [("boss@ex.com".toList)],
             subject := SUMMARY_SUBJECT,
             body := compose_run_summary (([ex_item] : List LeadItem).take 30) } :=
  run_summary_sent_when_configured [("boss@ex.com".toList)]
    (some ("agent@ex.com".toList)) ("agent@ex.com".toList) [ex_item]
    (by decide) (by decide) rfl

/-- Witness for C5 at a concrete build. -/
theorem built_lead_respects_caps_witness :
    (build_lead_item sha_id ex_result [] [] [] [] none none none none 0).emails.length ≤ MAX_EMAILS ∧
    (∀ e ∈ (build_lead_item sha_id ex_result [] [] [] [] none none none none 0).emails, e.length ≤ 254) ∧
    (build_lead_item sha_id ex_result [] [] [] [] none none none none 0).phones.length ≤ MAX_PHONES ∧
    (∀ p ∈ (build_lead_item sha_id ex_result [] [] [] [] none none none none 0).phones, p.length ≤ 64) ∧
    (build_lead_item sha_id ex_result [] [] [] [] none none none none 0).addresses.length ≤ MAX_ADDRESSES ∧
    (∀ a ∈ (build_lead_item sha_id ex_result [] [] [] [] none none none none 0).addresses, a.length ≤ 512) ∧
    (build_lead_item sha_id ex_result [] [] [] [] none none none none 0).title.length ≤ MAX_TITLE_LEN ∧
    (build_lead_item sha_id ex_result [] [] [] [] none none none none 0).snippet.length ≤ MAX_SEARCH_SNIPPET_LEN ∧
    (∀ s, (build_lead_item sha_id ex_result [] [] [] [] none none none none 0).contact_snippet = some s →
      s.length ≤ MAX_CONTACT_SNIPPET_LEN) :=
  built_lead_respects_caps sha_id ex_result [] [] [] [] none none none none 0

/-- Witness for C6 at a concrete keyword-free text. -/
theorem no_keyword_snippet_witness :
    find_contact_snippet ("hello world".toList) = some (("hello world".toList).take 400) :=
  no_keyword_snippet_is_first_400 ("hello world".toList) (by decide) (by decide)
    (by decide) (by decide) (by decide) (by decide)

/-- Witness for C7 at a concrete text with two emails. -/
theorem extract_emails_idempotent_witness :
    extract_emails (join_space (extract_emails ("a@b.c x d@e.f".toList)))
      = extract_emails ("a@b.c x d@e.f".toList) :=
  extract_emails_idempotent ("a@b.c x d@e.f".toList)

/-- Witness for C8 at two concrete builds of the same url and email pair in
different runs (different timestamps), written to an empty store. -/
theorem lead_id_deterministic_witness :
    (build_lead_item sha_id ex_result [] [] [] [] none none (some ("a@b.c".toList)) none 1).id =
      (build_lead_item sha_id ex_result [] [] [] [] none none (some ("a@b.c".toList)) none 2).id ∧
    store_keys (put_item
        (put_item [] (build_lead_item sha_id ex_result [] [] [] [] none none (some ("a@b.c".toList)) none 1))
        (build_lead_item sha_id ex_result [] [] [] [] none none (some ("a@b.c".toList)) none 2)) =
      store_keys (put_item [] (build_lead_item sha_id ex_result [] [] [] [] none none (some ("a@b.c".toList)) none 1)) :=
  lead_id_deterministic_and_overwrites sha_id ex_result ex_result [] [] [] [] [] []
    [] [] none none none none (some ("a@b.c".toList)) none none 1 2 [] rfl

/-- Witness for C9 at a concrete 404 response. -/
theorem fetch_failure_yields_empty_witness :
    fetch_page_text ("u".toList)
        (HttpOutcome.response ⟨404, "text/html".toList, "x".toList, "x".toList⟩) = [] :=
  fetch_failure_yields_empty ("u".toList)
    (HttpOutcome.response ⟨404, "text/html".toList, "x".toList, "x".toList⟩)
    (Or.inr ⟨⟨404, "text/html".toList, "x".toList, "x".toList⟩, rfl, by decide, by decide⟩)

end LVA
